import Mathlib

/-!
# Hypermall system: roll data and contractor sheet

A shallow embedding of the data derivation in `src/documents/actor.mjs`
(`getAbilityShorthand`, `_getContractorRollData`, `getRollData`) and of the dice-pool and
threshold routines in `src/sheets/actor/contractor-sheet.mjs` (`generateRollString`,
`calculateDicePool`, `getStatisticsDicePoolFromSheet`, `validateThresholdChange`).

Modelling conventions.

* The numbers the sheet handles are integer ratings: `JsVal.int n` stands for the JavaScript
  number `n`, with `NaN` and `undefined` as separate values. Addition rounds to the nearest
  double (`roundToDouble`), `parseInt` and string conversion go through the shortest-digits
  numeral of the number (`shortest`), so that `2^53 + 1` is `2^53`, `parseInt(1e21)` is `1`
  and `1e21` prints as `1e+21`. Theorems whose conclusion names an exact sum or numeral carry
  `isSafeInteger` hypotheses.
* A JavaScript object used as a record is an association list in property enumeration order
  (the order of `Object.entries`). An own-property test (`hasOwnProperty`, `Object.entries`)
  looks at the list alone; the bracket read `abilities[stat]` falls back to the members every
  object inherits (`objectPrototypeKeys`).
* A thrown exception is `Except.error`.
* `String.prototype.toLowerCase` is the host's Unicode case mapping; the sheet routines take it
  as the parameter `toLowerCase`. Closed evaluations pass `asciiLowerCase`, which agrees with
  it on ASCII strings; `santiziedName` is evaluated on ASCII names only.
-/

namespace Hypermall

/-! ## JavaScript values -/

/-- The primitive values that flow through the dice-pool arithmetic. -/
inductive JsVal where
  | undefined
  | nan
  | int (n : Int)
  deriving DecidableEq, Repr

/-- The exception the runtime raises on a property read from `undefined`. -/
inductive JsError where
  | typeError
  deriving DecidableEq, Repr

deriving instance DecidableEq for Except

/-! ### Numbers -/

/-- The constant `Number.MAX_SAFE_INTEGER`, `2^53 - 1`. -/
def maxSafeInteger : Int := 9007199254740991

/-- The test `Number.isSafeInteger` on an integer. -/
def isSafeInteger (n : Int) : Prop :=
  -maxSafeInteger ≤ n ∧ n ≤ maxSafeInteger

instance (n : Int) : Decidable (isSafeInteger n) := by
  unfold isSafeInteger
  infer_instance

/-- The number of binary digits `v` has beyond the 53 of a double's significand: the least
`s` with `v / 2^s < 2^53`. -/
def excessBits : Nat → Nat → Nat
  | 0, _ => 0
  | fuel + 1, v => if v < 9007199254740992 then 0 else 1 + excessBits fuel (v / 2)

/-- The double nearest to the natural number `v`, ties to the even significand (for `v` below
`2^1024`, where the doubles end). -/
def roundNat (v : Nat) : Nat :=
  let shift := excessBits v v
  if shift = 0 then v
  else
    let q := v / 2 ^ shift
    let r := v % 2 ^ shift
    let half := 2 ^ (shift - 1)
    let q := if half < r ∨ (r = half ∧ q % 2 = 1) then q + 1 else q
    q * 2 ^ shift

/-- The double nearest to the integer `n`. -/
def roundToDouble (n : Int) : Int :=
  if n < 0 then -((roundNat n.natAbs : Nat) : Int) else ((roundNat n.natAbs : Nat) : Int)

/-- The number of decimal digits of `x`. -/
def numDigits (x : Nat) : Nat :=
  (Nat.toDigits 10 x).length

/-- Among the two multiples of `p` around `x`, the count of the one that rounds to the double
`x`; of two that do, the closer one, and of two equally close ones the even one. -/
def candidate (x p : Nat) : Option Nat :=
  let lo := x / p
  let hi := lo + 1
  let okLo := decide (roundNat (lo * p) = x)
  let okHi := decide (roundNat (hi * p) = x)
  if okLo && okHi then
    if x - lo * p < hi * p - x then some lo
    else if hi * p - x < x - lo * p then some hi
    else if lo % 2 = 0 then some lo else some hi
  else if okLo then some lo
  else if okHi then some hi
  else none

/-- Search for the shortest digit string, trying `k` digits, then `k + 1`, and so on. -/
def shortestFrom (x n : Nat) : Nat → Nat → Nat × Nat
  | 0, _ => (x, n)
  | fuel + 1, k =>
    match candidate x (10 ^ (n - k)) with
    | some s => if s = 10 ^ k then (1, n + 1) else (s, n)
    | none => shortestFrom x n fuel (k + 1)

/-- The pair `(s, n)` of `Number::toString` for a positive integer double `x`: `s` has the
fewest digits `k` for which `s * 10^(n - k)` rounds to `x`. -/
def shortest (x : Nat) : Nat × Nat :=
  shortestFrom x (numDigits x) (numDigits x) 1

/-- The numeral `Number::toString` gives a positive integer double: the digits of `s` padded
with zeros while the number has at most 21 digits, exponent notation from `1e21` up. -/
def natToJsString (x : Nat) : String :=
  let sn := shortest x
  let ds := Nat.toDigits 10 sn.1
  if sn.2 ≤ 21 then String.mk (ds ++ List.replicate (sn.2 - ds.length) '0')
  else
    match ds with
    | [] => ""
    | [d] => String.mk (d :: 'e' :: '+' :: Nat.toDigits 10 (sn.2 - 1))
    | d :: rest => String.mk (d :: '.' :: rest ++ 'e' :: '+' :: Nat.toDigits 10 (sn.2 - 1))

/-- The first digit of the numeral of `x`. -/
def leadingDigit (x : Nat) : Nat :=
  (shortest x).1 / 10 ^ (numDigits (shortest x).1 - 1)

/-- Global `parseInt` on a value that is already a number, `NaN` or `undefined`: the argument
is converted to a string and the leading integer numeral of that string is read back. Below
`1e21` the numeral is the number itself; from `1e21` up the string is in exponent notation
and the numeral read is its first digit. -/
def parseInt : JsVal → JsVal
  | .int n =>
    if n.natAbs < 1000000000000000000000 then .int n
    else if n < 0 then .int (-(leadingDigit n.natAbs : Int))
    else .int (leadingDigit n.natAbs : Int)
  | .nan => .nan
  | .undefined => .nan

/-- Global `isNaN`. -/
def isNaN : JsVal → Bool
  | .int _ => false
  | .nan => true
  | .undefined => true

/-- Binary `+` on numbers: the sum of two numbers rounded to a double; anything other than
two numbers gives `NaN`. -/
def jsAdd : JsVal → JsVal → JsVal
  | .int a, .int b => .int (roundToDouble (a + b))
  | _, _ => .nan

/-- Relational `>` against a number; false as soon as the left operand is not a number. -/
def jsGt : JsVal → Int → Bool
  | .int a, b => decide (a > b)
  | _, _ => false

/-- Relational `<` against a number; false as soon as the left operand is not a number. -/
def jsLt : JsVal → Int → Bool
  | .int a, b => decide (a < b)
  | _, _ => false

/-- String conversion used by a template literal. A safe integer prints as its decimal
numeral; a larger number prints its shortest digits (`natToJsString`). -/
def jsToString : JsVal → String
  | .int n =>
    if isSafeInteger n then toString n
    else if n < 0 then "-" ++ natToJsString n.natAbs
    else natToJsString n.natAbs
  | .nan => "NaN"
  | .undefined => "undefined"

/-- Lower-casing of the ASCII letters: what `toLowerCase` and `toLocaleLowerCase` do to an
ASCII string. -/
def asciiLowerCase (s : String) : String :=
  String.mk (s.data.map Char.toLower)

/-- The names every plain object inherits from `Object.prototype`. -/
def objectPrototypeKeys : List String :=
  ["constructor", "__proto__", "__defineGetter__", "__defineSetter__", "__lookupGetter__",
   "__lookupSetter__", "hasOwnProperty", "isPrototypeOf", "propertyIsEnumerable",
   "toLocaleString", "toString", "valueOf"]

/-- The names a number inherits from `Number.prototype` and `Object.prototype`. -/
def numberPrototypeKeys : List String :=
  ["toExponential", "toFixed", "toPrecision"] ++ objectPrototypeKeys

/-- Replace the first occurrence of the character `pattern` by `replacement`, as
`String.prototype.replace` does for a string pattern. -/
def replaceFirst (pattern : Char) (replacement : List Char) : List Char → List Char
  | [] => []
  | c :: cs => if c = pattern then replacement ++ cs else c :: replaceFirst pattern replacement cs

/-- The call `s.replace(' ', '')`. -/
def replaceSpace (s : String) : String :=
  String.mk (replaceFirst ' ' [] s.data)

/-! ## Data model -/

/-- A skill rating, `{ value }`. -/
structure SkillScore where
  value : Int
  deriving DecidableEq, Repr

/-- An ability rating, `{ value, skills }`. -/
structure AbilityScore where
  value : Int
  skills : List (String × SkillScore)
  deriving DecidableEq, Repr

/-- The `abilities` record: ability name to ability rating, in enumeration order. -/
abbrev Abilities := List (String × AbilityScore)

/-- A top-level property of the roll data object. -/
inductive Property where
  | abilities (m : Abilities)
  | value (v : JsVal)
  deriving DecidableEq, Repr

/-- The roll data object. -/
abbrev RollData := List (String × Property)

/-- Property read `data[key]`. -/
def getProp (data : RollData) (key : String) : Property :=
  match data.lookup key with
  | some p => p
  | none => .value .undefined

/-- Property write `data[key] = p`: an existing key keeps its place, a new key goes last. -/
def setProp : RollData → String → Property → RollData
  | [], key, p => [(key, p)]
  | (k, q) :: rest, key, p =>
    if k = key then (key, p) :: rest else (k, q) :: setProp rest key p

/-- Truthiness of a property value, as tested by `if (data.abilities)`. -/
def truthy : Property → Bool
  | .abilities _ => true
  | .value (.int n) => decide (n ≠ 0)
  | .value .nan => false
  | .value .undefined => false

/-- `Object.entries` of a property value: a number has no own enumerable entries. -/
def entries : Property → Abilities
  | .abilities m => m
  | .value _ => []

/-! ## `src/documents/actor.mjs` -/

/-- `getAbilityShorthand(abilityName)`. -/
def getAbilityShorthand (abilityName : String) : String :=
  if abilityName = "physick" then "phy"
  else if abilityName = "craveability" then "cra"
  else if abilityName = "thinkitude" then "thi"
  else if abilityName = "savvy" then "sav"
  else ""

/-- The key computed by `skillName.replace(' ', '').toLocaleLowerCase()`. -/
def santiziedName (skillName : String) : String :=
  asciiLowerCase (replaceSpace skillName)

/-- The inner loop of `_getContractorRollData` over `Object.entries(ability.skills)`. -/
def copySkills (data : RollData) (skills : List (String × SkillScore)) : RollData :=
  skills.foldl (fun d e => setProp d (santiziedName e.1) (.value (.int e.2.value))) data

/-- The body of the outer loop of `_getContractorRollData` for one ability. -/
def copyAbility (data : RollData) (entry : String × AbilityScore) : RollData :=
  let shorthand := getAbilityShorthand entry.1
  let data := setProp data entry.1 (.value (.int entry.2.value))
  let data := if shorthand ≠ "" then setProp data shorthand (.value (.int entry.2.value)) else data
  copySkills data entry.2.skills

/-- `_getContractorRollData(data)`, returning the mutated `data`. -/
def _getContractorRollData (data : RollData) : RollData :=
  if truthy (getProp data "abilities") then
    (entries (getProp data "abilities")).foldl copyAbility data
  else data

/-- `_getNpcRollData(data)`: nothing is written on either path. -/
def _getNpcRollData (type : String) (data : RollData) : RollData :=
  if type ≠ "npc" then data else data

/-- An actor document: its type tag and the object `super.getRollData()` hands out. -/
structure Actor where
  type : String
  system : RollData
  deriving DecidableEq, Repr

/-- `getRollData()`. -/
def getRollData (actor : Actor) : RollData :=
  let data := actor.system
  let data := _getContractorRollData data
  let data := _getNpcRollData actor.type data
  data

/-! ## `src/sheets/actor/contractor-sheet.mjs` -/

/-- The element that triggered a roll, seen through the form controls the sheet reads:
`form[26].value` (stat), `form[27].value` (skill), `form[28].value` (passions modifier) and
`form[29].value` (initiative modifier). -/
structure HtmlElement where
  form26 : String
  form27 : String
  form28 : String
  form29 : String
  deriving DecidableEq, Repr

/-- `generateRollString(dicePool)`: the template literal with the pool interpolated. -/
def generateRollString (dicePool : JsVal) : String :=
  jsToString dicePool ++ "d6cs>=5)"

/-- The callback handed to `forEach` in `getStatisticsDicePoolFromSheet`, as a step on the
captured variable `skillPool`. Every ability of the data model owns a `skills` record, so the
guard reduces to the own-property test on `ability.skills`. -/
def scanSkill (skill : String) (skillPool : JsVal) (ability : AbilityScore) : JsVal :=
  match ability.skills.lookup skill with
  | some s => parseInt (.int s.value)
  | none => skillPool

/-- The read `abilities[stat].value` on an abilities record: the own entry when there is one;
otherwise a member inherited from `Object.prototype`, whose `value` is `undefined`; otherwise
`abilities[stat]` is `undefined` and the read of `.value` raises. -/
def readStatValue (abilities : Abilities) (stat : String) : Except JsError JsVal :=
  match abilities.lookup stat with
  | some ability => .ok (.int ability.value)
  | none => if stat ∈ objectPrototypeKeys then .ok .undefined else .error .typeError

/-- `getStatisticsDicePoolFromSheet(htmlElement, rollData)`, with the string method
`toLowerCase` as a parameter. When `rollData.abilities` is `undefined` the first read raises;
when it is a number, `stat` can only name an inherited member and `Object.values` is empty. -/
def getStatisticsDicePoolFromSheet (toLowerCase : String → String) (htmlElement : HtmlElement)
    (rollData : RollData) : Except JsError JsVal :=
  let stat := toLowerCase htmlElement.form26
  let skill := htmlElement.form27
  match getProp rollData "abilities" with
  | .value .undefined => .error .typeError
  | .value _ =>
    if stat ∈ numberPrototypeKeys then .ok (jsAdd (parseInt .undefined) .undefined)
    else .error .typeError
  | .abilities abilities =>
    match readStatValue abilities stat with
    | .error e => .error e
    | .ok v =>
      let statPool := parseInt v
      let skillPool := (abilities.map Prod.snd).foldl (scanSkill skill) .undefined
      .ok (jsAdd statPool skillPool)

/-- The value of the local variable `dicePool` when the body of `calculateDicePool` ends. -/
def calculateDicePoolLocal (toLowerCase : String → String) (actor : Actor)
    (triggeringElement : HtmlElement) (passionsModifier : JsVal) : Except JsError JsVal :=
  let rollData := getRollData actor
  match getStatisticsDicePoolFromSheet toLowerCase triggeringElement rollData with
  | .error e => .error e
  | .ok r =>
    let dicePool := parseInt r
    .ok (jsAdd dicePool passionsModifier)

/-- `calculateDicePool(triggeringElement, passionsModifier)`: the body computes `dicePool` and
ends without a `return`, so a call that does not throw evaluates to `undefined`. -/
def calculateDicePool (toLowerCase : String → String) (actor : Actor)
    (triggeringElement : HtmlElement) (passionsModifier : JsVal) : Except JsError JsVal :=
  match calculateDicePoolLocal toLowerCase actor triggeringElement passionsModifier with
  | .error e => .error e
  | .ok _ => .ok .undefined

/-- `getPassionsModifierFromSheet(htmlElement)`. -/
def getPassionsModifierFromSheet (htmlElement : HtmlElement) : String :=
  htmlElement.form28

/-- The form control whose text a threshold listener validates. Assigning a number to its
`value` stores the decimal numeral. -/
structure EventTarget where
  value : String
  deriving DecidableEq, Repr

/-- A resource tracker of the actor (`meat`, `stress`, `debt`): `{ value, min, max }`. -/
structure Tracker where
  value : Int
  min : Int
  max : Int
  deriving DecidableEq, Repr

/-- `validateThresholdChange(eventValue, eventTarget, actorValue)`, returning the control. -/
def validateThresholdChange (eventValue : JsVal) (eventTarget : EventTarget)
    (actorValue : Tracker) : EventTarget :=
  let eventTarget :=
    if isNaN eventValue then { eventTarget with value := toString actorValue.value }
    else eventTarget
  let eventTarget :=
    if jsGt eventValue actorValue.max then { eventTarget with value := toString actorValue.max }
    else eventTarget
  let eventTarget :=
    if jsLt eventValue actorValue.min then { eventTarget with value := toString actorValue.min }
    else eventTarget
  eventTarget

/-! ## Reference definition from the specification -/

/-- The specification's `clampToRange(value, min, max, fallback)`: the fallback when `value`
is not a number, otherwise `value` clamped into `[min, max]`. -/
def clampToRange (value : JsVal) (min max fallback : Int) : Int :=
  match value with
  | .int v => Max.max min (Min.min v max)
  | _ => fallback

/-! ## Example data -/

/-- The abilities of the specification's example scenario. -/
def scenarioAbilities : Abilities :=
  [("physick", { value := 3, skills := [] }),
   ("savvy", { value := 2, skills := [("fast talk", { value := 2 })] })]

/-- An actor carrying the example scenario's abilities. -/
def scenarioActor : Actor :=
  { type := "contractor", system := [("abilities", .abilities scenarioAbilities)] }

/-- An actor whose skill is stored under the key the roll form sends, `fasttalk`. -/
def exactKeyActor : Actor :=
  { type := "contractor",
    system := [("abilities", .abilities
      [("physick", { value := 3, skills := [] }),
       ("savvy", { value := 2, skills := [("fasttalk", { value := 2 })] })])] }

/-- Roll data in which the skill `brawl` is stored under two abilities. -/
def twoBrawlData : RollData :=
  [("abilities", .abilities
    [("physick", { value := 3, skills := [("brawl", { value := 1 })] }),
     ("savvy", { value := 2, skills := [("brawl", { value := 5 })] })])]

/-- Roll data with a skill whose name holds two spaces. -/
def spacedSkillData : RollData :=
  [("abilities", .abilities
    [("savvy", { value := 2, skills := [("Fast Talk Now", { value := 4 })] })])]

/-- Roll data in which a skill is named after its ability. -/
def clashData : RollData :=
  [("abilities", .abilities
    [("physick", { value := 3, skills := [("Physick", { value := 7 })] })])]

/-! ## Theorems -/

/-! ### Numerals -/

theorem digitChar_ne_paren (d : Nat) (h : d < 10) :
    Nat.digitChar d ≠ ')' ∧ Nat.digitChar d ≠ '(' := by
  interval_cases d <;> exact ⟨by decide, by decide⟩

theorem toDigitsCore_no_paren (fuel : Nat) :
    ∀ (n : Nat) (ds : List Char), (∀ c ∈ ds, c ≠ ')' ∧ c ≠ '(') →
      ∀ c ∈ Nat.toDigitsCore 10 fuel n ds, c ≠ ')' ∧ c ≠ '(' := by
  induction fuel with
  | zero => intro n ds h; simpa [Nat.toDigitsCore] using h
  | succ f ih =>
    intro n ds h
    have hcons : ∀ c ∈ Nat.digitChar (n % 10) :: ds, c ≠ ')' ∧ c ≠ '(' := by
      intro c hc
      rcases List.mem_cons.mp hc with rfl | hc
      · exact digitChar_ne_paren _ (Nat.mod_lt _ (by decide))
      · exact h c hc
    simp only [Nat.toDigitsCore]
    split_ifs
    · exact hcons
    · exact ih _ _ hcons

theorem toDigits_no_paren (n : Nat) : ∀ c ∈ Nat.toDigits 10 n, c ≠ ')' ∧ c ≠ '(' :=
  toDigitsCore_no_paren _ _ [] (by simp)

theorem natRepr_no_paren (n : Nat) : ∀ c ∈ (Nat.repr n).data, c ≠ ')' ∧ c ≠ '(' := by
  intro c hc
  have h : c ∈ Nat.toDigits 10 n := by simpa [Nat.repr, List.asString] using hc
  exact toDigits_no_paren n c h

theorem intToString_no_paren (n : Int) : ∀ c ∈ (toString n).data, c ≠ ')' ∧ c ≠ '(' := by
  intro c hc
  cases n with
  | ofNat m =>
    have h : c ∈ (Nat.repr m).data := by simpa [toString, instToStringInt, Int.repr] using hc
    exact natRepr_no_paren m c h
  | negSucc m =>
    have h : c = '-' ∨ c ∈ (Nat.repr (m + 1)).data := by
      simpa [toString, instToStringInt, Int.repr, String.data_append] using hc
    rcases h with rfl | h
    · decide
    · exact natRepr_no_paren _ c h

theorem natToJsString_no_paren (x : Nat) :
    ∀ c ∈ (natToJsString x).data, c ≠ ')' ∧ c ≠ '(' := by
  intro c hc
  unfold natToJsString at hc
  simp only [] at hc
  split at hc
  · simp only [List.mem_append, List.mem_replicate] at hc
    rcases hc with h | ⟨_, rfl⟩
    · exact toDigits_no_paren _ c h
    · decide
  · split at hc
    · simp at hc
    · rename_i d hds
      have hd : d ∈ Nat.toDigits 10 (shortest x).1 := by rw [hds]; simp
      simp only [List.mem_cons] at hc
      rcases hc with rfl | rfl | rfl | h
      · exact toDigits_no_paren _ _ hd
      · decide
      · decide
      · exact toDigits_no_paren _ c h
    · rename_i d rest _ hds
      have hsub : ∀ a ∈ d :: rest, a ∈ Nat.toDigits 10 (shortest x).1 := by
        intro a ha; rw [hds]; exact ha
      simp only [List.mem_cons, List.mem_append] at hc
      rcases hc with (rfl | rfl | h) | rfl | rfl | h
      · exact toDigits_no_paren _ _ (hsub _ (List.mem_cons_self _ _))
      · decide
      · exact toDigits_no_paren _ _ (hsub _ (List.mem_cons_of_mem _ h))
      · decide
      · decide
      · exact toDigits_no_paren _ c h

theorem jsToString_int_no_paren (n : Int) :
    ∀ c ∈ (jsToString (.int n)).data, c ≠ ')' ∧ c ≠ '(' := by
  intro c hc
  simp only [jsToString] at hc
  split_ifs at hc
  · exact intToString_no_paren n c hc
  · rw [String.data_append] at hc
    rcases List.mem_append.mp hc with h | h
    · have : c = '-' := by simpa using h
      subst this
      decide
    · exact natToJsString_no_paren _ c h
  · exact natToJsString_no_paren _ c hc

theorem count_eq_zero_of_no_paren (l : List Char) (p : Char)
    (h : ∀ c ∈ l, c ≠ p) : l.count p = 0 :=
  List.count_eq_zero.mpr (fun hm => h p hm rfl)

theorem roundNat_of_lt (v : Nat) (h : v < 9007199254740992) : roundNat v = v := by
  have hz : excessBits v v = 0 := by
    cases v with
    | zero => rfl
    | succ m => simp [excessBits, h]
  simp [roundNat, hz]

theorem roundToDouble_of_safe (n : Int) (h : isSafeInteger n) : roundToDouble n = n := by
  unfold isSafeInteger maxSafeInteger at h
  have hlt : n.natAbs < 9007199254740992 := by omega
  unfold roundToDouble
  rw [roundNat_of_lt _ hlt]
  split_ifs <;> omega

theorem parseInt_of_safe (n : Int) (h : isSafeInteger n) : parseInt (.int n) = .int n := by
  unfold isSafeInteger maxSafeInteger at h
  have hlt : n.natAbs < 1000000000000000000000 := by omega
  simp [parseInt, hlt]

theorem jsAdd_of_safe (a b : Int) (h : isSafeInteger (a + b)) :
    jsAdd (.int a) (.int b) = .int (a + b) := by
  simp [jsAdd, roundToDouble_of_safe _ h]

theorem parseInt_int_isInt (n : Int) : ∃ m, parseInt (.int n) = .int m := by
  simp only [parseInt]
  split_ifs
  · exact ⟨_, rfl⟩
  · exact ⟨_, rfl⟩
  · exact ⟨_, rfl⟩

/-! ### `generateRollString` -/

/-- C10, as the code has it: for every integer `dicePool`, `generateRollString(dicePool)` is
the numeral the runtime prints for `dicePool` followed by the literal `d6cs>=5)`; for a safe
integer that numeral is the decimal rendering of `dicePool`; and for every integer the result
holds exactly one closing parenthesis and no opening one. -/
theorem generateRollString_int (dicePool : Int) :
    (isSafeInteger dicePool →
      generateRollString (.int dicePool) = toString dicePool ++ "d6cs>=5)") ∧
    (generateRollString (.int dicePool)).data.count ')' = 1 ∧
    (generateRollString (.int dicePool)).data.count '(' = 0 := by
  have hdata : (generateRollString (.int dicePool)).data
      = (jsToString (.int dicePool)).data ++ "d6cs>=5)".data := by
    simp [generateRollString, String.data_append]
  have hclose : (jsToString (.int dicePool)).data.count ')' = 0 :=
    count_eq_zero_of_no_paren _ _ (fun c hc => (jsToString_int_no_paren dicePool c hc).1)
  have hopen : (jsToString (.int dicePool)).data.count '(' = 0 :=
    count_eq_zero_of_no_paren _ _ (fun c hc => (jsToString_int_no_paren dicePool c hc).2)
  refine ⟨?_, ?_, ?_⟩
  · intro hsafe
    simp [generateRollString, jsToString, hsafe]
  · rw [hdata, List.count_append, hclose]; decide
  · rw [hdata, List.count_append, hopen]; decide

/-- C10 on a pool of 6: the roll string is `6d6cs>=5)`. -/
theorem generateRollString_int_witness :
    isSafeInteger 6 ∧ generateRollString (.int 6) = "6d6cs>=5)" :=
  ⟨by decide, (generateRollString_int 6).1 (by decide)⟩

/-- C10 as the claim words it fails: the integer `10^21` prints in exponent notation, so the
roll string is `1e+21d6cs>=5)` and not the decimal rendering of `10^21` followed by the
literal. -/
theorem generateRollString_1e21 :
    generateRollString (.int 1000000000000000000000) = "1e+21d6cs>=5)" ∧
    generateRollString (.int 1000000000000000000000)
      ≠ toString (1000000000000000000000 : Int) ++ "d6cs>=5)" := by
  decide

/-! ### `getAbilityShorthand` -/

/-- C7, as the code has it: `getAbilityShorthand` maps `physick` to `phy`, `craveability` to
`cra`, `thinkitude` to `thi`, `savvy` to `sav`, and every other ability name to the empty
string. -/
theorem getAbilityShorthand_table (abilityName : String) :
    getAbilityShorthand "physick" = "phy" ∧
    getAbilityShorthand "craveability" = "cra" ∧
    getAbilityShorthand "thinkitude" = "thi" ∧
    getAbilityShorthand "savvy" = "sav" ∧
    (abilityName ∉ ["physick", "craveability", "thinkitude", "savvy"] →
      getAbilityShorthand abilityName = "") := by
  refine ⟨by decide, by decide, by decide, by decide, ?_⟩
  intro h
  simp only [List.mem_cons, List.mem_singleton, List.not_mem_nil, or_false, not_or] at h
  obtain ⟨h1, h2, h3, h4⟩ := h
  simp [getAbilityShorthand, h1, h2, h3, h4]

/-- C7 at an unlisted name: `brains` has no shorthand. -/
theorem getAbilityShorthand_table_witness :
    "brains" ∉ ["physick", "craveability", "thinkitude", "savvy"] ∧
    getAbilityShorthand "brains" = "" :=
  ⟨by decide, (getAbilityShorthand_table "brains").2.2.2.2 (by decide)⟩

/-- C7 as the claim words it fails: the name `physical` is not in the table, so its shorthand
is the empty string and not `phy`. -/
theorem getAbilityShorthand_physical :
    getAbilityShorthand "physical" = "" ∧ getAbilityShorthand "physical" ≠ "phy" := by
  decide

/-! ### `validateThresholdChange` -/

/-- C6: for a tracker with `min ≤ max`, `validateThresholdChange` leaves in the control the
tracker's current value when the parsed input is `NaN`, `min` when the input is below `min`,
`max` when it is above `max`, and does not touch the control when the input lies in
`[min, max]`; so whenever an in-range input is what the control shows, the control ends up
showing `clampToRange(input, min, max, value)`. -/
theorem validateThresholdChange_clampToRange (eventValue : JsVal) (eventTarget : EventTarget)
    (actorValue : Tracker) (hrange : actorValue.min ≤ actorValue.max) :
    (isNaN eventValue = true →
      (validateThresholdChange eventValue eventTarget actorValue).value
        = toString actorValue.value) ∧
    (∀ v, eventValue = .int v → v < actorValue.min →
      (validateThresholdChange eventValue eventTarget actorValue).value
        = toString actorValue.min) ∧
    (∀ v, eventValue = .int v → v > actorValue.max →
      (validateThresholdChange eventValue eventTarget actorValue).value
        = toString actorValue.max) ∧
    (∀ v, eventValue = .int v → actorValue.min ≤ v → v ≤ actorValue.max →
      validateThresholdChange eventValue eventTarget actorValue = eventTarget) ∧
    ((∀ v, eventValue = .int v → actorValue.min ≤ v → v ≤ actorValue.max →
        eventTarget.value = toString v) →
      (validateThresholdChange eventValue eventTarget actorValue).value
        = toString (clampToRange eventValue actorValue.min actorValue.max actorValue.value)) := by
  cases eventValue with
  | undefined => simp [validateThresholdChange, isNaN, jsGt, jsLt, clampToRange]
  | nan => simp [validateThresholdChange, isNaN, jsGt, jsLt, clampToRange]
  | int n =>
    refine ⟨by simp [isNaN], ?_, ?_, ?_, ?_⟩
    · intro v hv hlt
      cases hv
      have h1 : ¬ n > actorValue.max := by omega
      simp [validateThresholdChange, isNaN, jsGt, jsLt, hlt, h1]
    · intro v hv hgt
      cases hv
      have h1 : ¬ n < actorValue.min := by omega
      simp [validateThresholdChange, isNaN, jsGt, jsLt, hgt, h1]
    · intro v hv hlo hhi
      cases hv
      have h1 : ¬ n < actorValue.min := by omega
      have h2 : ¬ n > actorValue.max := by omega
      simp [validateThresholdChange, isNaN, jsGt, jsLt, h1, h2]
    · intro hshow
      by_cases hlt : n < actorValue.min
      · have h1 : ¬ n > actorValue.max := by omega
        have h2 : Max.max actorValue.min (Min.min n actorValue.max) = actorValue.min := by
          omega
        simp [validateThresholdChange, isNaN, jsGt, jsLt, hlt, h1, clampToRange, h2]
      · by_cases hgt : n > actorValue.max
        · have h2 : Max.max actorValue.min (Min.min n actorValue.max) = actorValue.max := by
            omega
          simp [validateThresholdChange, isNaN, jsGt, jsLt, hlt, hgt, clampToRange, h2]
        · have h2 : Max.max actorValue.min (Min.min n actorValue.max) = n := by omega
          have h3 := hshow n rfl (by omega) (by omega)
          simp [validateThresholdChange, isNaN, jsGt, jsLt, hlt, hgt, clampToRange, h2, h3]

/-- C6 on the four inputs of the specification, `(NaN, 0, 10, 3)`, `(15, 0, 10, 3)`,
`(-2, 0, 10, 3)` and `(5, 0, 10, 3)`: the control ends up showing 3, 10, 0 and 5. -/
theorem validateThresholdChange_clampToRange_witness :
    (validateThresholdChange .nan ⟨"x"⟩ ⟨3, 0, 10⟩).value = "3" ∧
    (validateThresholdChange (.int 15) ⟨"15"⟩ ⟨3, 0, 10⟩).value = "10" ∧
    (validateThresholdChange (.int (-2)) ⟨"-2"⟩ ⟨3, 0, 10⟩).value = "0" ∧
    validateThresholdChange (.int 5) ⟨"5"⟩ ⟨3, 0, 10⟩ = ⟨"5"⟩ :=
  ⟨(validateThresholdChange_clampToRange .nan ⟨"x"⟩ ⟨3, 0, 10⟩ (by decide)).1 rfl,
   (validateThresholdChange_clampToRange (.int 15) ⟨"15"⟩ ⟨3, 0, 10⟩ (by decide)).2.2.1 15 rfl
     (by decide),
   (validateThresholdChange_clampToRange (.int (-2)) ⟨"-2"⟩ ⟨3, 0, 10⟩ (by decide)).2.1 (-2) rfl
     (by decide),
   (validateThresholdChange_clampToRange (.int 5) ⟨"5"⟩ ⟨3, 0, 10⟩ (by decide)).2.2.2.1 5 rfl
     (by decide) (by decide)⟩

/-! ### `calculateDicePool` -/

/-- C1 on the code: with physick 3, the skill `fasttalk` 2 and modifier 1 the local variable
`dicePool` reaches 6, yet the call evaluates to `undefined`; and no call of
`calculateDicePool` evaluates to an integer. -/
theorem calculateDicePool_undefined :
    calculateDicePoolLocal asciiLowerCase exactKeyActor ⟨"Physick", "fasttalk", "1", "0"⟩
      (.int 1) = .ok (.int 6) ∧
    calculateDicePool asciiLowerCase exactKeyActor ⟨"Physick", "fasttalk", "1", "0"⟩ (.int 1)
      = .ok .undefined ∧
    ∀ (toLowerCase : String → String) (actor : Actor) (triggeringElement : HtmlElement)
      (passionsModifier : JsVal) (n : Int),
      calculateDicePool toLowerCase actor triggeringElement passionsModifier
        ≠ .ok (.int n) := by
  refine ⟨by decide, by decide, ?_⟩
  intro lower actor el pm n
  unfold calculateDicePool
  cases calculateDicePoolLocal lower actor el pm <;> simp

/-! ### `santiziedName` -/

/-- C8 on the code: the skill name `Fast Talk Now` is indexed under `fasttalk now`, a key
that still holds a space, and nothing is stored under `fasttalknow`. -/
theorem santiziedName_second_space :
    santiziedName "Fast Talk Now" = "fasttalk now" ∧
    ' ' ∈ (santiziedName "Fast Talk Now").data ∧
    getProp (_getContractorRollData spacedSkillData) "fasttalk now" = .value (.int 4) ∧
    getProp (_getContractorRollData spacedSkillData) "fasttalknow" = .value .undefined := by
  decide

/-! ### `getStatisticsDicePoolFromSheet` -/

theorem getStatisticsDicePoolFromSheet_eq (toLowerCase : String → String)
    (htmlElement : HtmlElement) (rollData : RollData)
    (abilities : Abilities) (ability : AbilityScore)
    (habilities : getProp rollData "abilities" = .abilities abilities)
    (hstat : abilities.lookup (toLowerCase htmlElement.form26) = some ability) :
    getStatisticsDicePoolFromSheet toLowerCase htmlElement rollData
      = .ok (jsAdd (parseInt (.int ability.value))
          ((abilities.map Prod.snd).foldl (scanSkill htmlElement.form27) .undefined)) := by
  simp [getStatisticsDicePoolFromSheet, habilities, readStatValue, hstat]

theorem getStatisticsDicePoolFromSheet_inherited (toLowerCase : String → String)
    (htmlElement : HtmlElement) (rollData : RollData) (abilities : Abilities)
    (habilities : getProp rollData "abilities" = .abilities abilities)
    (hstat : abilities.lookup (toLowerCase htmlElement.form26) = none)
    (hproto : toLowerCase htmlElement.form26 ∈ objectPrototypeKeys) :
    getStatisticsDicePoolFromSheet toLowerCase htmlElement rollData = .ok .nan := by
  simp [getStatisticsDicePoolFromSheet, habilities, readStatValue, hstat, hproto, parseInt,
    jsAdd]

theorem getStatisticsDicePoolFromSheet_missing (toLowerCase : String → String)
    (htmlElement : HtmlElement) (rollData : RollData) (abilities : Abilities)
    (habilities : getProp rollData "abilities" = .abilities abilities)
    (hstat : abilities.lookup (toLowerCase htmlElement.form26) = none)
    (hproto : toLowerCase htmlElement.form26 ∉ objectPrototypeKeys) :
    getStatisticsDicePoolFromSheet toLowerCase htmlElement rollData = .error .typeError := by
  simp [getStatisticsDicePoolFromSheet, habilities, readStatValue, hstat, hproto]

theorem foldl_scanSkill_absent (skill : String) (l : List AbilityScore) (init : JsVal)
    (h : ∀ a ∈ l, a.skills.lookup skill = none) :
    l.foldl (scanSkill skill) init = init := by
  induction l generalizing init with
  | nil => rfl
  | cons a l ih =>
    have ha : scanSkill skill init a = init := by
      simp [scanSkill, h a (List.mem_cons_self a l)]
    rw [List.foldl_cons, ha]
    exact ih init (fun b hb => h b (List.mem_cons_of_mem a hb))

theorem foldl_scanSkill_last (skill : String) (pre post : List AbilityScore)
    (a : AbilityScore) (s : SkillScore) (init : JsVal)
    (hs : a.skills.lookup skill = some s)
    (hpost : ∀ b ∈ post, b.skills.lookup skill = none) :
    (pre ++ a :: post).foldl (scanSkill skill) init = parseInt (.int s.value) := by
  rw [List.foldl_append, List.foldl_cons]
  have ha : scanSkill skill (pre.foldl (scanSkill skill) init) a = parseInt (.int s.value) := by
    simp [scanSkill, hs]
  rw [ha]
  exact foldl_scanSkill_absent skill post _ hpost

theorem foldl_scanSkill_agree (skill : String) (s : SkillScore) (l : List AbilityScore)
    (init : JsVal)
    (hall : ∀ b ∈ l, ∀ t, b.skills.lookup skill = some t → t = s) :
    (l.foldl (scanSkill skill) init = init ∧ ∀ b ∈ l, b.skills.lookup skill = none) ∨
    l.foldl (scanSkill skill) init = parseInt (.int s.value) := by
  induction l generalizing init with
  | nil => left; exact ⟨rfl, by simp⟩
  | cons a l ih =>
    have hl : ∀ b ∈ l, ∀ t, b.skills.lookup skill = some t → t = s :=
      fun b hb => hall b (List.mem_cons_of_mem a hb)
    rw [List.foldl_cons]
    cases hlook : a.skills.lookup skill with
    | none =>
      have ha : scanSkill skill init a = init := by simp [scanSkill, hlook]
      rw [ha]
      rcases ih init hl with ⟨h1, h2⟩ | h
      · left
        refine ⟨h1, ?_⟩
        intro b hb
        rcases List.mem_cons.mp hb with rfl | hb
        · exact hlook
        · exact h2 b hb
      · right; exact h
    | some t =>
      have ht : t = s := hall a (List.mem_cons_self a l) t hlook
      have ha : scanSkill skill init a = parseInt (.int s.value) := by
        simp [scanSkill, hlook, ht]
      rw [ha]
      right
      rcases ih (parseInt (.int s.value)) hl with ⟨h1, _⟩ | h
      · exact h1
      · exact h

theorem lookup_none_of_not_mem_keys {β : Type} (l : List (String × β)) (k : String)
    (h : k ∉ l.map Prod.fst) : l.lookup k = none := by
  rw [List.lookup_eq_none_iff]
  intro p hp
  simp only [bne_iff_ne, ne_eq]
  intro hk
  exact h (List.mem_map.mpr ⟨p, hp, hk.symm⟩)

theorem lookup_some_of_mem_keys {β : Type} (l : List (String × β)) (k : String)
    (h : k ∈ l.map Prod.fst) : ∃ b, l.lookup k = some b := by
  cases hl : l.lookup k with
  | some b => exact ⟨b, rfl⟩
  | none =>
    rw [List.lookup_eq_none_iff] at hl
    obtain ⟨p, hp, hk⟩ := List.mem_map.mp h
    have := hl p hp
    simp [hk] at this

/-- C5, as the code has it: there is no unknown-stat check; with `statKey` the lower-cased stat
value of the form, `getStatisticsDicePoolFromSheet` raises (a `TypeError`, on the read of
`.value` from `undefined`) when `statKey` is neither a key of `abilities` nor the name of a
member every object inherits; it returns a value when `statKey` is a key of `abilities`; and
when `statKey` is not a key but names an inherited member (`constructor`, `__proto__`) it
does not raise and returns `NaN`. -/
theorem getStatisticsDicePoolFromSheet_unknownStat (toLowerCase : String → String)
    (htmlElement : HtmlElement) (rollData : RollData) (abilities : Abilities)
    (habilities : getProp rollData "abilities" = .abilities abilities) :
    (toLowerCase htmlElement.form26 ∉ abilities.map Prod.fst →
      toLowerCase htmlElement.form26 ∉ objectPrototypeKeys →
      getStatisticsDicePoolFromSheet toLowerCase htmlElement rollData = .error .typeError) ∧
    (toLowerCase htmlElement.form26 ∈ abilities.map Prod.fst →
      ∃ v, getStatisticsDicePoolFromSheet toLowerCase htmlElement rollData = .ok v) ∧
    (toLowerCase htmlElement.form26 ∉ abilities.map Prod.fst →
      toLowerCase htmlElement.form26 ∈ objectPrototypeKeys →
      getStatisticsDicePoolFromSheet toLowerCase htmlElement rollData = .ok .nan) := by
  refine ⟨?_, ?_, ?_⟩
  · intro h hproto
    exact getStatisticsDicePoolFromSheet_missing toLowerCase htmlElement rollData abilities
      habilities (lookup_none_of_not_mem_keys abilities _ h) hproto
  · intro h
    obtain ⟨ability, hl⟩ := lookup_some_of_mem_keys abilities _ h
    exact ⟨_, getStatisticsDicePoolFromSheet_eq toLowerCase htmlElement rollData abilities
      ability habilities hl⟩
  · intro h hproto
    exact getStatisticsDicePoolFromSheet_inherited toLowerCase htmlElement rollData abilities
      habilities (lookup_none_of_not_mem_keys abilities _ h) hproto

/-- C5 on the example scenario: the stat `Brains` is unknown and the call raises, the stat
`Savvy` is known and the call returns, and the stat `__proto__` names an inherited member and
the call returns `NaN`. -/
theorem getStatisticsDicePoolFromSheet_unknownStat_witness :
    getStatisticsDicePoolFromSheet asciiLowerCase ⟨"Brains", "fast talk", "0", "0"⟩
      scenarioActor.system = .error .typeError ∧
    (∃ v, getStatisticsDicePoolFromSheet asciiLowerCase ⟨"Savvy", "fast talk", "0", "0"⟩
      scenarioActor.system = .ok v) ∧
    getStatisticsDicePoolFromSheet asciiLowerCase ⟨"__proto__", "fast talk", "0", "0"⟩
      scenarioActor.system = .ok .nan :=
  ⟨(getStatisticsDicePoolFromSheet_unknownStat asciiLowerCase ⟨"Brains", "fast talk", "0", "0"⟩
      scenarioActor.system scenarioAbilities (by decide)).1 (by decide) (by decide),
   (getStatisticsDicePoolFromSheet_unknownStat asciiLowerCase ⟨"Savvy", "fast talk", "0", "0"⟩
      scenarioActor.system scenarioAbilities (by decide)).2.1 (by decide),
   (getStatisticsDicePoolFromSheet_unknownStat asciiLowerCase
      ⟨"__proto__", "fast talk", "0", "0"⟩
      scenarioActor.system scenarioAbilities (by decide)).2.2 (by decide) (by decide)⟩

/-- C5 as the claim words it fails: `constructor` is not a key of the scenario's abilities,
yet `abilities["constructor"]` is the inherited member, its `value` is `undefined`, and the
call returns `NaN` instead of raising. -/
theorem getStatisticsDicePoolFromSheet_constructor :
    "constructor" ∉ scenarioAbilities.map Prod.fst ∧
    getStatisticsDicePoolFromSheet asciiLowerCase ⟨"constructor", "fast talk", "0", "0"⟩
      (getRollData scenarioActor) = .ok .nan ∧
    ∀ err, getStatisticsDicePoolFromSheet asciiLowerCase ⟨"constructor", "fast talk", "0", "0"⟩
      (getRollData scenarioActor) ≠ .error err := by
  refine ⟨by decide, by decide, ?_⟩
  intro err
  have h : getStatisticsDicePoolFromSheet asciiLowerCase
      ⟨"constructor", "fast talk", "0", "0"⟩ (getRollData scenarioActor) = .ok .nan := by
    decide
  rw [h]
  simp

/-- C4, as the code has it: when `statKey` resolves and no ability stores the skill key,
`getStatisticsDicePoolFromSheet` does not raise; `skillPool` stays `undefined` and the call
returns `NaN`. -/
theorem getStatisticsDicePoolFromSheet_unknownSkill (toLowerCase : String → String)
    (htmlElement : HtmlElement)
    (rollData : RollData) (abilities : Abilities) (ability : AbilityScore)
    (habilities : getProp rollData "abilities" = .abilities abilities)
    (hstat : abilities.lookup (toLowerCase htmlElement.form26) = some ability)
    (hskill : ∀ e ∈ abilities, e.2.skills.lookup htmlElement.form27 = none) :
    getStatisticsDicePoolFromSheet toLowerCase htmlElement rollData = .ok .nan := by
  rw [getStatisticsDicePoolFromSheet_eq toLowerCase htmlElement rollData abilities ability
    habilities hstat]
  have hfold : (abilities.map Prod.snd).foldl (scanSkill htmlElement.form27) .undefined
      = .undefined := by
    apply foldl_scanSkill_absent
    intro a ha
    obtain ⟨e, he, rfl⟩ := List.mem_map.mp ha
    exact hskill e he
  rw [hfold]
  obtain ⟨m, hm⟩ := parseInt_int_isInt ability.value
  rw [hm]
  rfl

/-- C4 on the skill key `lockpicking`, which `twoBrawlData` stores nowhere. -/
theorem getStatisticsDicePoolFromSheet_unknownSkill_witness :
    getStatisticsDicePoolFromSheet asciiLowerCase ⟨"Physick", "lockpicking", "0", "0"⟩
      twoBrawlData = .ok .nan :=
  getStatisticsDicePoolFromSheet_unknownSkill asciiLowerCase
    ⟨"Physick", "lockpicking", "0", "0"⟩ twoBrawlData
    [("physick", { value := 3, skills := [("brawl", { value := 1 })] }),
     ("savvy", { value := 2, skills := [("brawl", { value := 5 })] })]
    { value := 3, skills := [("brawl", { value := 1 })] }
    (by decide) (by decide) (by decide)

/-- C4 as the claim words it fails: in the example scenario no ability stores `haggle`, yet
`getStatisticsDicePoolFromSheet` returns (`NaN`) instead of raising, and `calculateDicePool`
returns as well. -/
theorem getStatisticsDicePoolFromSheet_haggle :
    (∀ e ∈ scenarioAbilities, e.2.skills.lookup "haggle" = none) ∧
    getStatisticsDicePoolFromSheet asciiLowerCase ⟨"Savvy", "haggle", "0", "0"⟩
      (getRollData scenarioActor) = .ok .nan ∧
    (∀ err, getStatisticsDicePoolFromSheet asciiLowerCase ⟨"Savvy", "haggle", "0", "0"⟩
      (getRollData scenarioActor) ≠ .error err) ∧
    calculateDicePool asciiLowerCase scenarioActor ⟨"Savvy", "haggle", "0", "0"⟩ (.int 0)
      = .ok .undefined := by
  refine ⟨by decide, by decide, ?_, by decide⟩
  intro err
  have h : getStatisticsDicePoolFromSheet asciiLowerCase ⟨"Savvy", "haggle", "0", "0"⟩
      (getRollData scenarioActor) = .ok .nan := by decide
  rw [h]
  simp

/-- C3, as the code has it: the `forEach` scan overwrites `skillPool` at every match, so the
skill value added to the stat value is that of the LAST ability, in enumeration order, whose
skills contain the skill key. The sum is exact when the two ratings and their sum are safe
integers. -/
theorem getStatisticsDicePoolFromSheet_lastMatch (toLowerCase : String → String)
    (htmlElement : HtmlElement)
    (rollData : RollData) (pre post : Abilities) (name : String) (a ability : AbilityScore)
    (s : SkillScore)
    (habilities : getProp rollData "abilities" = .abilities (pre ++ (name, a) :: post))
    (hstat : (pre ++ (name, a) :: post).lookup (toLowerCase htmlElement.form26) = some ability)
    (hskill : a.skills.lookup htmlElement.form27 = some s)
    (hpost : ∀ e ∈ post, e.2.skills.lookup htmlElement.form27 = none)
    (hsafeStat : isSafeInteger ability.value) (hsafeSkill : isSafeInteger s.value)
    (hsafeSum : isSafeInteger (ability.value + s.value)) :
    getStatisticsDicePoolFromSheet toLowerCase htmlElement rollData
      = .ok (.int (ability.value + s.value)) := by
  rw [getStatisticsDicePoolFromSheet_eq toLowerCase htmlElement rollData _ ability habilities
    hstat]
  have hfold : ((pre ++ (name, a) :: post).map Prod.snd).foldl
      (scanSkill htmlElement.form27) .undefined = parseInt (.int s.value) := by
    rw [List.map_append, List.map_cons]
    apply foldl_scanSkill_last _ _ _ _ s _ hskill
    intro b hb
    obtain ⟨e, he, rfl⟩ := List.mem_map.mp hb
    exact hpost e he
  rw [hfold, parseInt_of_safe _ hsafeStat, parseInt_of_safe _ hsafeSkill,
    jsAdd_of_safe _ _ hsafeSum]

/-- C3 on `twoBrawlData`: `brawl` is stored under `physick` (1) and then under `savvy` (5);
the pool for stat `physick` is `3 + 5`. -/
theorem getStatisticsDicePoolFromSheet_lastMatch_witness :
    getStatisticsDicePoolFromSheet asciiLowerCase ⟨"Physick", "brawl", "0", "0"⟩ twoBrawlData
      = .ok (.int (3 + 5)) :=
  getStatisticsDicePoolFromSheet_lastMatch asciiLowerCase ⟨"Physick", "brawl", "0", "0"⟩
    twoBrawlData
    [("physick", { value := 3, skills := [("brawl", { value := 1 })] })] []
    "savvy" { value := 2, skills := [("brawl", { value := 5 })] }
    { value := 3, skills := [("brawl", { value := 1 })] } { value := 5 }
    (by decide) (by decide) (by decide) (by decide) (by decide) (by decide) (by decide)

/-- C3 as the claim words it fails: in `twoBrawlData` the first ability that stores `brawl` is
`physick`, with value 1, and the pool for stat `physick` is 8, not `3 + 1`. -/
theorem getStatisticsDicePoolFromSheet_twoBrawl :
    (entries (getProp twoBrawlData "abilities")).head?.map
        (fun e => (e.1, e.2.skills.lookup "brawl")) = some ("physick", some { value := 1 }) ∧
    getStatisticsDicePoolFromSheet asciiLowerCase ⟨"physick", "brawl", "0", "0"⟩ twoBrawlData
      = .ok (.int 8) ∧
    getStatisticsDicePoolFromSheet asciiLowerCase ⟨"physick", "brawl", "0", "0"⟩ twoBrawlData
      ≠ .ok (.int (3 + 1)) := by
  decide

/-- C2, as the code has it: the skill key is matched exactly, with no normalization on either
side. When some ability stores a skill under the very key the form sends, and every ability
that stores that key gives it the same rating, the call returns the stat value plus that
rating; the sum is exact when the two ratings and their sum are safe integers. -/
theorem getStatisticsDicePoolFromSheet_exactKey (toLowerCase : String → String)
    (htmlElement : HtmlElement)
    (rollData : RollData) (abilities : Abilities) (ability : AbilityScore) (s : SkillScore)
    (habilities : getProp rollData "abilities" = .abilities abilities)
    (hstat : abilities.lookup (toLowerCase htmlElement.form26) = some ability)
    (hstored : ∃ e ∈ abilities, e.2.skills.lookup htmlElement.form27 = some s)
    (hsame : ∀ e ∈ abilities, ∀ t, e.2.skills.lookup htmlElement.form27 = some t → t = s)
    (hsafeStat : isSafeInteger ability.value) (hsafeSkill : isSafeInteger s.value)
    (hsafeSum : isSafeInteger (ability.value + s.value)) :
    getStatisticsDicePoolFromSheet toLowerCase htmlElement rollData
      = .ok (.int (ability.value + s.value)) := by
  rw [getStatisticsDicePoolFromSheet_eq toLowerCase htmlElement rollData abilities ability
    habilities hstat]
  have hall : ∀ b ∈ abilities.map Prod.snd, ∀ t,
      b.skills.lookup htmlElement.form27 = some t → t = s := by
    intro b hb
    obtain ⟨e, he, rfl⟩ := List.mem_map.mp hb
    exact hsame e he
  have hfold : (abilities.map Prod.snd).foldl (scanSkill htmlElement.form27) .undefined
      = parseInt (.int s.value) := by
    rcases foldl_scanSkill_agree htmlElement.form27 s _ .undefined hall with ⟨_, hnone⟩ | h
    · obtain ⟨e, he, hs⟩ := hstored
      have := hnone e.2 (List.mem_map.mpr ⟨e, he, rfl⟩)
      rw [hs] at this
      cases this
    · exact h
  rw [hfold, parseInt_of_safe _ hsafeStat, parseInt_of_safe _ hsafeSkill,
    jsAdd_of_safe _ _ hsafeSum]

/-- C2 on the example scenario queried with the stored key `fast talk`: the pool is 5. -/
theorem getStatisticsDicePoolFromSheet_exactKey_witness :
    getStatisticsDicePoolFromSheet asciiLowerCase ⟨"physick", "fast talk", "1", "0"⟩
      scenarioActor.system = .ok (.int (3 + 2)) :=
  getStatisticsDicePoolFromSheet_exactKey asciiLowerCase ⟨"physick", "fast talk", "1", "0"⟩
    scenarioActor.system scenarioAbilities { value := 3, skills := [] } { value := 2 }
    (by decide) (by decide) (by decide) (by decide) (by decide) (by decide) (by decide)

/-- C2 as the claim words it fails: in the example scenario the skill stored as `fast talk`
is not found under its normalized key `fasttalk`; the stat-plus-skill pool is `NaN`, not 5,
and the value `calculateDicePool` computes with modifier 1 is `NaN`, not 6. -/
theorem getStatisticsDicePoolFromSheet_fasttalk :
    santiziedName "fast talk" = "fasttalk" ∧
    getStatisticsDicePoolFromSheet asciiLowerCase ⟨"physick", "fasttalk", "1", "0"⟩
      (getRollData scenarioActor) = .ok .nan ∧
    getStatisticsDicePoolFromSheet asciiLowerCase ⟨"physick", "fasttalk", "1", "0"⟩
      (getRollData scenarioActor) ≠ .ok (.int 5) ∧
    calculateDicePoolLocal asciiLowerCase scenarioActor ⟨"physick", "fasttalk", "1", "0"⟩
      (.int 1) ≠ .ok (.int 6) := by
  decide

/-! ### `_getContractorRollData` -/

/-- C9 on the code: in `clashData` the skill `Physick` is indexed under `physick` after the
ability score was copied there, so after the call `data.abilities.physick.value` is 3 while
`data.physick` is 7, the skill's value. -/
theorem getContractorRollData_clash :
    (entries (getProp (_getContractorRollData clashData) "abilities")).lookup "physick"
      = some { value := 3, skills := [("Physick", { value := 7 })] } ∧
    santiziedName "Physick" = "physick" ∧
    getProp (_getContractorRollData clashData) "physick" = .value (.int 7) ∧
    getProp (_getContractorRollData clashData) "physick" ≠ .value (.int 3) := by
  decide

end Hypermall
